import Mathlib

/-!
Verification development for the noether layer header
(`include/noether/Layers.h`): the 3D tensor the layers operate on, the
`ConvLayer` and `FullyConnectedLayer` constructors and forward passes, and
theorems about their shapes and computed values.

The element type `E` stands for the C++ template parameter `ElemTy`; the
theorems instantiate it with a commutative ring (the arithmetic the layers
perform is addition and multiplication only).
-/

/-- Modelled from the spec: the 3D tensor `Array3D` of `Tensor.h`, which is not
among the given sources. Width `sx`, height `sy`, depth `sz`; a contiguous
buffer addressed by `(x, y, z)` with depth fastest varying. The buffer is
modelled as a total map from flat indices, so a read or write past `size`
(undefined behaviour in the C++ design) is given a harmless mathematical
meaning: it lands at a flat index at or beyond `sx*sy*sz`. -/
structure Array3D (E : Type) where
  sx : Nat
  sy : Nat
  sz : Nat
  data : Nat → E

/-- Flat index of coordinate `(x, y, z)`: depth fastest varying. -/
def Array3D.flatIdx {E : Type} (t : Array3D E) (x y z : Nat) : Nat :=
  (x * t.sy + y) * t.sz + z

/-- Modelled from the spec: `get(x, y, z)`, direct element read. -/
def Array3D.get {E : Type} (t : Array3D E) (x y z : Nat) : E :=
  t.data (t.flatIdx x y z)

/-- Modelled from the spec: flat `get(i)` / `operator[]` read, used when a
tensor is treated as a flat weight or bias vector. -/
def Array3D.getFlat {E : Type} (t : Array3D E) (i : Nat) : E :=
  t.data i

/-- Modelled from the spec: assignment through `get(x, y, z)`. The shape is
unchanged; only the buffer cell at the flat index is replaced. -/
def Array3D.set {E : Type} (t : Array3D E) (x y z : Nat) (v : E) : Array3D E :=
  { t with data := fun j => if j = t.flatIdx x y z then v else t.data j }

/-- Modelled from the spec: `isInBounds(x, y)` tests whether a 2D spatial
coordinate lies within the tensor's first two dimensions. -/
def Array3D.isInBounds {E : Type} (t : Array3D E) (x y : Nat) : Bool :=
  decide (x < t.sx) && decide (y < t.sy)

/-- Modelled from the spec: `size() = sx*sy*sz`. -/
def Array3D.size {E : Type} (t : Array3D E) : Nat :=
  t.sx * t.sy * t.sz

/-- Modelled from the spec: `reset(sx, sy, sz)` produces fresh storage of the
given shape; prior contents are not preserved (fresh cells read as zero). -/
def Array3D.reset {E : Type} [Zero E] (sx sy sz : Nat) : Array3D E :=
  ⟨sx, sy, sz, fun _ => 0⟩

/-- `size_t` subtraction `a - b` computed modulo `2^64`, for operands already
below `2^64`; used where the constructor's shape arithmetic can wrap. -/
def wsub (a b : Nat) : Nat :=
  (a + 2 ^ 64 - b) % 2 ^ 64

/-- State of a `ConvLayer`. `input` is the predecessor's output tensor
(`input_->getOutput()`); the predecessor reference is collapsed to the one
tensor the forward pass reads from it. -/
structure ConvLayer (E : Type) where
  input : Array3D E
  filters : List (Array3D E)
  bias : Array3D E
  output : Array3D E
  filterSize : Nat
  stride : Nat
  pad : Nat

/-- `ConvLayer::ConvLayer` (Layers.h lines 48-65). The two `assert`s
(`pad == 0` first, then a non-null input) are modelled by returning `none`;
the shape arithmetic `(inx + pad_*2 - filterSize) / stride + 1` is `size_t`
arithmetic, hence computed modulo `2^64`. Filters are `outDepth` fresh
tensors of shape `(filterSize, filterSize, inz)` (the source appends them
with `emplace`), the bias is `(1, 1, outDepth)`, the output
`(outsx, outsy, outDepth)`. -/
def ConvLayer.make {E : Type} [Zero E] (input : Option (Array3D E))
    (outDepth filterSize stride pad : Nat) : Option (ConvLayer E) :=
  if pad = 0 then
    match input with
    | none => none
    | some inp =>
      let outsx := (wsub (inp.sx + pad * 2) filterSize / stride + 1) % 2 ^ 64
      let outsy := (wsub (inp.sy + pad * 2) filterSize / stride + 1) % 2 ^ 64
      some { input := inp
             filters := List.replicate outDepth
               (Array3D.reset filterSize filterSize inp.sz)
             bias := Array3D.reset 1 1 outDepth
             output := Array3D.reset outsx outsy outDepth
             filterSize := filterSize
             stride := stride
             pad := pad }
  else none

/-- A list of stores `(flat index, value)` applied from left to right to a
buffer: each store replaces one cell, later stores win. This captures a run
of `get(...) = v;` assignments into one tensor. -/
def writeFn {E : Type} (ws : List (Nat × E)) (d : Nat → E) : Nat → E :=
  ws.foldl (fun acc p => fun j => if j = p.1 then p.2 else acc j) d

/-- Apply a list of stores to a tensor; the shape is untouched. -/
def applyWrites {E : Type} (ws : List (Nat × E)) (t : Array3D E) : Array3D E :=
  { t with data := writeFn ws t.data }

/-- One accumulated output value of `ConvLayer::forward` (Layers.h lines
82-101) for output coordinate `(ax, ay, d)`: `x`/`y` are the window anchor
(`x += stride_` per step from zero, so `x = ax * stride`), `sum` runs over
`fy` then `fx`, the bounds test is taken on `output_` exactly as the source
writes it (line 92), the `fd` loop adds filter-times-input products, and the
bias for depth `d` is added at the end. Nothing here reads the output
buffer's contents: only its dimensions, through `isInBounds`. -/
def ConvLayer.cell {E : Type} [CommRing E] (L : ConvLayer E)
    (d ay ax : Nat) : E :=
  let x := ax * L.stride
  let y := ay * L.stride
  let f := L.filters.getD d (Array3D.reset 0 0 0)
  ((List.range L.filterSize).foldl (fun s fy =>
      (List.range L.filterSize).foldl (fun s fx =>
        if L.output.isInBounds (x + fx) (y + fy) then
          (List.range L.input.sz).foldl (fun s fd =>
            s + f.get fx fy fd * L.input.get (x + fx) (y + fy) fd) s
        else s) s) 0)
    + L.bias.getFlat d

/-- The stores of one `ConvLayer::forward` call in execution order: `d`
outermost, then `ay`, then `ax`, each storing `cell` at flat coordinate
`(ax, ay, d)`. The `ax` loop bound is `outy`, exactly as the source has it
(line 83: `for (size_t ax = 0; ax < outy; ...)`). Because no store's value
reads the output buffer (see `cell`), the in-place mutation of the source is
equivalent to collecting the stores and applying them in order. -/
def ConvLayer.writes {E : Type} [CommRing E] (L : ConvLayer E) :
    List (Nat × E) :=
  (List.range L.output.sz).flatMap fun d =>
    (List.range L.output.sy).flatMap fun ay =>
      (List.range L.output.sy).map fun ax =>
        (L.output.flatIdx ax ay d, L.cell d ay ax)

/-- `ConvLayer::forward` (Layers.h lines 67-106): overwrite the output buffer
with the convolution stores; every other field is untouched. -/
def ConvLayer.forward {E : Type} [CommRing E] (L : ConvLayer E) : ConvLayer E :=
  { L with output := applyWrites L.writes L.output }

/-- State of a `FullyConnectedLayer`; as for `ConvLayer`, `input` is the
predecessor's output tensor. -/
structure FullyConnectedLayer (E : Type) where
  input : Array3D E
  filters : List (Array3D E)
  bias : Array3D E
  output : Array3D E

/-- `FullyConnectedLayer::FullyConnectedLayer` (Layers.h lines 119-132): the
null-input `assert` is modelled by `none`; output and bias are
`(1, 1, outDepth)`, and each of the `outDepth` filters is a flat
`(1, 1, numInputs)` weight vector with `numInputs = input->size()`. -/
def FullyConnectedLayer.make {E : Type} [Zero E] (input : Option (Array3D E))
    (outDepth : Nat) : Option (FullyConnectedLayer E) :=
  match input with
  | none => none
  | some inp =>
    some { input := inp
           filters := List.replicate outDepth (Array3D.reset 1 1 inp.size)
           bias := Array3D.reset 1 1 outDepth
           output := Array3D.reset 1 1 outDepth }

/-- The `(sum, idx)` pair after the flattening loops of
`FullyConnectedLayer::forward` (Layers.h lines 144-153): `x` outermost, then
`y`, then `z`, accumulating `input.get(x,y,z) * currFilter[idx++]` with `idx`
starting at zero. -/
def fcLoop {E : Type} [CommRing E] (input filter : Array3D E) : E × Nat :=
  (List.range input.sx).foldl (fun acc x =>
    (List.range input.sy).foldl (fun acc y =>
      (List.range input.sz).foldl (fun acc z =>
        (acc.1 + input.get x y z * filter.getFlat acc.2, acc.2 + 1))
        acc) acc) (0, 0)

/-- The stores of one `FullyConnectedLayer::forward` call: for each unit `i`
the flattened dot product plus `bias_[i]`, stored at coordinate `(1, 1, i)`
exactly as the source writes it (line 156: `output_.get(1,1,i) = sum`). -/
def FullyConnectedLayer.writes {E : Type} [CommRing E]
    (L : FullyConnectedLayer E) : List (Nat × E) :=
  (List.range L.output.sz).map fun i =>
    (L.output.flatIdx 1 1 i,
     (fcLoop L.input (L.filters.getD i (Array3D.reset 0 0 0))).1
       + L.bias.getFlat i)

/-- `FullyConnectedLayer::forward` (Layers.h lines 134-158): overwrite the
output buffer with the per-unit stores; every other field is untouched. -/
def FullyConnectedLayer.forward {E : Type} [CommRing E]
    (L : FullyConnectedLayer E) : FullyConnectedLayer E :=
  { L with output := applyWrites L.writes L.output }

/-- An all-ones tensor over the integers, used by the concrete scenarios. -/
def onesT (sx sy sz : Nat) : Array3D ℤ :=
  ⟨sx, sy, sz, fun _ => 1⟩

/-- Concrete convolution layer over a 4×3×1 all-ones input: filterSize 3,
stride 1, pad 0, one all-ones filter, zero bias. Its output shape 2×1×1 is
the one `ConvLayer.make` computes for these parameters. -/
def convRect : ConvLayer ℤ :=
  { input := onesT 4 3 1
    filters := [onesT 3 3 1]
    bias := ⟨1, 1, 1, fun _ => 0⟩
    output := Array3D.reset 2 1 1
    filterSize := 3
    stride := 1
    pad := 0 }

/-- The spec's end-to-end scenario: a 5×5×1 all-ones input into a convolution
with filterSize 3, stride 1, pad 0, one all-ones filter, zero bias; the
output shape 3×3×1 is the one `ConvLayer.make` computes. -/
def conv5 : ConvLayer ℤ :=
  { input := onesT 5 5 1
    filters := [onesT 3 3 1]
    bias := ⟨1, 1, 1, fun _ => 0⟩
    output := Array3D.reset 3 3 1
    filterSize := 3
    stride := 1
    pad := 0 }

/-- Concrete fully-connected layer over a 2×1×1 all-ones input with one
output unit, all-ones weight vector and zero bias. -/
def fcEx : FullyConnectedLayer ℤ :=
  { input := onesT 2 1 1
    filters := [onesT 1 1 2]
    bias := ⟨1, 1, 1, fun _ => 0⟩
    output := Array3D.reset 1 1 1 }

/-! ## Helper lemmas about store lists and counting loops -/

lemma writeFn_cons {E : Type} (p : Nat × E) (ws : List (Nat × E))
    (d : Nat → E) :
    writeFn (p :: ws) d = writeFn ws (fun j => if j = p.1 then p.2 else d j) :=
  rfl

lemma writeFn_not_mem {E : Type} (ws : List (Nat × E)) (d : Nat → E)
    (j : Nat) (h : j ∉ ws.map Prod.fst) : writeFn ws d j = d j := by
  induction ws generalizing d with
  | nil => rfl
  | cons p ws ih =>
    have hj : j ≠ p.1 ∧ j ∉ ws.map Prod.fst := by
      simpa [not_or] using h
    rw [writeFn_cons, ih _ hj.2]
    exact if_neg hj.1

lemma writeFn_mem {E : Type} (ws : List (Nat × E)) (j : Nat)
    (h : j ∈ ws.map Prod.fst) (d d' : Nat → E) :
    writeFn ws d j = writeFn ws d' j := by
  induction ws generalizing d d' with
  | nil => simp at h
  | cons p ws ih =>
    rw [writeFn_cons, writeFn_cons]
    by_cases hm : j ∈ ws.map Prod.fst
    · exact ih hm _ _
    · have hj : j = p.1 := by
        rcases (by simpa using h : j = p.1 ∨ j ∈ ws.map Prod.fst) with h1 | h1
        · exact h1
        · exact absurd h1 hm
      rw [writeFn_not_mem _ _ _ hm, writeFn_not_mem _ _ _ hm]
      simp [hj]

lemma writeFn_idem {E : Type} (ws : List (Nat × E)) (d : Nat → E) :
    writeFn ws (writeFn ws d) = writeFn ws d := by
  funext j
  by_cases h : j ∈ ws.map Prod.fst
  · exact writeFn_mem ws j h _ _
  · rw [writeFn_not_mem _ _ _ h]

lemma applyWrites_twice {E : Type} (ws : List (Nat × E)) (t : Array3D E) :
    applyWrites ws (applyWrites ws t) = applyWrites ws t := by
  simp [applyWrites, writeFn_idem]

/-- A fold whose step always advances the counter component by `m` ends with
the counter advanced by `length * m`. -/
lemma foldl_count {γ α : Type} (step : γ × Nat → α → γ × Nat) (m : Nat)
    (hs : ∀ a x, (step a x).2 = a.2 + m) (l : List α) (a : γ × Nat) :
    (l.foldl step a).2 = a.2 + l.length * m := by
  induction l generalizing a with
  | nil => simp
  | cons x l ih =>
    rw [List.foldl_cons, ih, hs, List.length_cons]
    ring

/-! ## Claim theorems -/

/-- Claim C1: forward() is claimed to overwrite every output element
`(ax, ay, d)` with bias plus the filter dot product over the window anchored
at `(ax*S, ay*S)`. The code refutes this: on a 4×3×1 all-ones input with a
3×3 all-ones filter (output 2×1×1), the constructor does produce shape
2×1×1, yet forward leaves output element `(1, 0, 0)` at its reset value `0`
instead of the claimed `9` (the `ax` loop runs to `outy`, not `outx`), and
the element `(0, 0, 0)` it does write receives `2` instead of `9` (the
bounds guard is taken on the output extent, losing in-bounds input taps). -/
theorem convForward_C1_bug :
    (ConvLayer.make (E := ℤ) (some (onesT 4 3 1)) 1 3 1 0).map
        (fun l => (l.output.sx, l.output.sy, l.output.sz)) = some (2, 1, 1)
    ∧ convRect.forward.output.get 1 0 0 = 0
    ∧ convRect.forward.output.get 0 0 0 = 2 := by
  decide

/-- Claim C2: a ConvLayer built over a predecessor of spatial size
`(W, H, Cin)` with filter size `F ≤ W, F ≤ H` (positive), stride `S > 0` and
pad `0` gets an output tensor shaped exactly
`((W - F)/S + 1, (H - F)/S + 1, D)`, the floor-division convolution shape
formula. The bounds `W, H < 2^64` keep the `size_t` arithmetic away from
wrap-around. -/
theorem convMake_shape {E : Type} [Zero E] (t : Array3D E) (D F S : Nat)
    (hF : 0 < F) (hW : F ≤ t.sx) (hH : F ≤ t.sy) (_hS : 0 < S)
    (hWlt : t.sx < 2 ^ 64) (hHlt : t.sy < 2 ^ 64) :
    (ConvLayer.make (some t) D F S 0).map
        (fun l => (l.output.sx, l.output.sy, l.output.sz))
      = some ((t.sx - F) / S + 1, (t.sy - F) / S + 1, D) := by
  have hsub : ∀ a : Nat, F ≤ a → a < 2 ^ 64 → wsub (a + 0 * 2) F = a - F := by
    intro a hFa ha
    have h1 : a + 0 * 2 + 2 ^ 64 - F = (a - F) + 2 ^ 64 := by omega
    have h2 : a - F < 2 ^ 64 := lt_of_le_of_lt (Nat.sub_le a F) ha
    rw [wsub, h1, Nat.add_mod_right, Nat.mod_eq_of_lt h2]
  have hmod : ∀ a : Nat, F ≤ a → a < 2 ^ 64 →
      ((a - F) / S + 1) % 2 ^ 64 = (a - F) / S + 1 := by
    intro a hFa ha
    have h3 : (a - F) / S ≤ a - F := Nat.div_le_self _ _
    exact Nat.mod_eq_of_lt (by omega)
  simp only [ConvLayer.make, if_pos rfl, hsub t.sx hW hWlt, hsub t.sy hH hHlt,
    hmod t.sx hW hWlt, hmod t.sy hH hHlt, if_true, Option.map_some',
    Array3D.reset]

/-- Claim C2 witness: the 5×5×1 predecessor with filter size 3, stride 1,
pad 0 and one output depth gets output shape 3×3×1. -/
theorem convMake_shape_w :
    0 < 3 ∧ (3 ≤ 5 ∧ 0 < 1 ∧ 5 < 2 ^ 64) ∧
    (ConvLayer.make (E := ℤ) (some (onesT 5 5 1)) 1 3 1 0).map
        (fun l => (l.output.sx, l.output.sy, l.output.sz)) = some (3, 3, 1) :=
  ⟨by decide, ⟨by decide, by decide, by decide⟩, by
    have h := convMake_shape (E := ℤ) (onesT 5 5 1) 1 3 1 (by decide)
      (by decide) (by decide) (by decide) (by decide) (by decide)
    simpa using h⟩

/-- Claim C3: forward() is claimed to store unit `i`'s dot product plus bias
into output element `i`. The code refutes this: with a 2×1×1 all-ones input,
one unit, all-ones weights and zero bias, the computed unit value is `2`,
but the store goes to coordinate `(1, 1, 0)` — flat index `2`, outside the
one-element `(1, 1, 1)` output — so output element `0` keeps its reset value
`0` instead of `2`. -/
theorem fcForward_C3_bug :
    (fcLoop fcEx.input (onesT 1 1 2)).1 + fcEx.bias.getFlat 0 = 2
    ∧ fcEx.output.flatIdx 1 1 0 = 2
    ∧ fcEx.output.size = 1
    ∧ fcEx.forward.output.get 0 0 0 = 0 := by
  decide

/-- Claim C4: every `inputBuffer.get(ox, oy, fd)` in ConvLayer::forward is
claimed to be guarded by a bounds test on the input tensor's extent. The
code refutes this: the guard is `output_.isInBounds(ox, oy)`. In the 5×5
scenario the window anchored at output position `(2, 2)` reaches input cell
`(4, 4)`, which is inside the 5×5 input but outside the 3×3 output, so the
guard discards eight in-bounds taps and the stored value is `1` instead of
the `9` an input-extent guard would give. -/
theorem convForward_C4_bug :
    conv5.input.isInBounds 4 4 = true
    ∧ conv5.output.isInBounds 4 4 = false
    ∧ conv5.forward.output.get 2 2 0 = 1 := by
  decide

/-- Claim C5: the spec's end-to-end scenario claims every element of the
3×3×1 output is `9`. The code refutes this: the corner `(0, 0, 0)` is `9`,
but the centre `(1, 1, 0)` is `4` (the output-extent bounds guard drops the
taps whose coordinates reach 3 or 4). -/
theorem conv5_C5_bug :
    conv5.forward.output.get 0 0 0 = 9
    ∧ conv5.forward.output.get 1 1 0 = 4 := by
  decide

/-- Claim C6: constructing a ConvLayer whose filter exceeds the input extent
is claimed to be rejected at construction time. The code refutes this: with
a 2×2×1 predecessor, filter size 3, stride 1, pad 0, the `size_t` shape
arithmetic wraps (`2 - 3` underflows, and dividing and adding one yields
`2^64 mod 2^64 = 0`) and the constructor silently returns a layer whose
output tensor is shaped 0×0×1. -/
theorem convMake_C6_bug :
    (ConvLayer.make (E := ℤ) (some (onesT 2 2 1)) 1 3 1 0).map
        (fun l => (l.output.sx, l.output.sy, l.output.sz)) = some (0, 0, 1) := by
  decide

/-- Claim C7: the flattening loops of FullyConnectedLayer::forward read
exactly `inx * iny * inz` elements for each output unit, so the final value
of the `idx` counter always equals `numInputs = predecessor.size()` and the
`idx == numInputs` assertion never fires. -/
theorem fcLoop_count {E : Type} [CommRing E] (input filter : Array3D E) :
    (fcLoop input filter).2 = input.size := by
  have hin : ∀ (x y : Nat) (a : E × Nat),
      ((List.range input.sz).foldl (fun acc z =>
          (acc.1 + input.get x y z * filter.getFlat acc.2, acc.2 + 1)) a).2
        = a.2 + input.sz := by
    intro x y a
    simpa using foldl_count _ 1 (fun a z => rfl) (List.range input.sz) a
  have hmid : ∀ (x : Nat) (a : E × Nat),
      ((List.range input.sy).foldl (fun acc y =>
          (List.range input.sz).foldl (fun acc z =>
            (acc.1 + input.get x y z * filter.getFlat acc.2, acc.2 + 1)) acc)
          a).2
        = a.2 + input.sy * input.sz := by
    intro x a
    simpa using foldl_count _ input.sz (fun a y => hin x y a)
      (List.range input.sy) a
  have hout := foldl_count _ (input.sy * input.sz) (fun a x => hmid x a)
    (List.range input.sx) ((0 : E), 0)
  simpa [fcLoop, Array3D.size, mul_assoc] using hout

/-- Claim C8: a null predecessor (for either layer) or a nonzero pad (for
ConvLayer) fails the construction-time asserts, so no layer object is
produced from such parameters. -/
theorem ctor_null_or_pad_rejected {E : Type} [Zero E] (t : Array3D E)
    (D F S p : Nat) (hp : p ≠ 0) :
    (∀ q : Nat, ConvLayer.make (E := E) none D F S q = none)
    ∧ ConvLayer.make (some t) D F S p = none
    ∧ FullyConnectedLayer.make (E := E) none D = none := by
  refine ⟨fun q => ?_, ?_, rfl⟩
  · by_cases hq : q = 0 <;> simp [ConvLayer.make, hq]
  · simp [ConvLayer.make, hp]

/-- Claim C8 witness: with pad 2 (and separately with a null predecessor)
the concrete construction attempts all yield no layer. -/
theorem ctor_null_or_pad_rejected_w :
    ConvLayer.make (E := ℤ) none 1 3 1 0 = none
    ∧ ConvLayer.make (E := ℤ) (some (onesT 2 2 1)) 1 3 1 2 = none
    ∧ FullyConnectedLayer.make (E := ℤ) none 1 = none :=
  ⟨(ctor_null_or_pad_rejected (onesT 2 2 1) 1 3 1 2 (by decide)).1 0,
   (ctor_null_or_pad_rejected (onesT 2 2 1) 1 3 1 2 (by decide)).2.1,
   (ctor_null_or_pad_rejected (onesT 2 2 1) 1 3 1 2 (by decide)).2.2⟩

/-- Claim C9: forward() is a pure function of the predecessor output, the
filters and the bias (plus the fixed output shape), so calling it twice in a
row leaves both layers in exactly the state one call produces. -/
theorem forward_idempotent {E : Type} [CommRing E] (cl : ConvLayer E)
    (fl : FullyConnectedLayer E) :
    cl.forward.forward = cl.forward ∧ fl.forward.forward = fl.forward := by
  constructor
  · have hw : cl.forward.writes = cl.writes := rfl
    show { cl.forward with
        output := applyWrites cl.forward.writes cl.forward.output }
      = cl.forward
    rw [hw]
    show { cl.forward with
        output := applyWrites cl.writes (applyWrites cl.writes cl.output) }
      = cl.forward
    rw [applyWrites_twice]
    rfl
  · have hw : fl.forward.writes = fl.writes := rfl
    show { fl.forward with
        output := applyWrites fl.forward.writes fl.forward.output }
      = fl.forward
    rw [hw]
    show { fl.forward with
        output := applyWrites fl.writes (applyWrites fl.writes fl.output) }
      = fl.forward
    rw [applyWrites_twice]
    rfl

/-- Claim C10: forward() writes only the layer's own output tensor; the
predecessor's output tensor, the filters, the bias and the hyperparameters
are all left unchanged by every forward call, for both layers. -/
theorem forward_frame {E : Type} [CommRing E] (cl : ConvLayer E)
    (fl : FullyConnectedLayer E) :
    cl.forward.input = cl.input ∧ cl.forward.filters = cl.filters
    ∧ cl.forward.bias = cl.bias ∧ cl.forward.filterSize = cl.filterSize
    ∧ cl.forward.stride = cl.stride ∧ cl.forward.pad = cl.pad
    ∧ fl.forward.input = fl.input ∧ fl.forward.filters = fl.filters
    ∧ fl.forward.bias = fl.bias :=
  ⟨rfl, rfl, rfl, rfl, rfl, rfl, rfl, rfl, rfl⟩
